import Mathlib

/-!
Verification of the frame-acquisition subsystem of `src/Resources/camera.py`:
a shallow embedding of the `RingBuffer`, `CameraDataThread` and `Camera`
classes, together with theorems settling the specification's claims about
them.  Frames are abstracted by a type parameter (the claims never inspect
pixel data); Python's `None` slot value is `Option.none`.
-/

namespace CameraPy

/-- Embedding of class `RingBuffer` (camera.py lines 35-86).  The Python
object holds a fixed-length list of optional frames plus two indices and two
counters; the lock only serializes operations and has no sequential effect,
so it is not modelled. -/
structure RingBuffer (α : Type) where
  size : Nat
  frames : List (Option α)
  write_index : Nat
  read_index : Nat
  write_count : Nat
  read_count : Nat
deriving Repr, DecidableEq

/-- Embedding of `RingBuffer.__init__` (lines 42-52): a buffer of `size`
slots, all `None`, with both indices and both counters at zero. -/
def mkRingBuffer {α : Type} (size : Nat) : RingBuffer α :=
  { size := size
    frames := List.replicate size none
    write_index := 0
    read_index := 0
    write_count := 0
    read_count := 0 }

/-- Embedding of `RingBuffer.push` (lines 54-62): write the frame at
`write_index` (overwriting), advance `write_index` modulo `size`, increment
`write_count`. -/
def RingBuffer.push {α : Type} (s : RingBuffer α) (frame : α) : RingBuffer α :=
  { s with
    frames := s.frames.set s.write_index (some frame)
    write_index := (s.write_index + 1) % s.size
    write_count := s.write_count + 1 }

/-- Embedding of `RingBuffer.pop` (lines 64-77): if
`read_count > write_count` or `read_index == write_index`, return `None` and
leave the state unchanged; otherwise return the slot at `read_index`,
advance `read_index` modulo `size` and increment `read_count`.  The returned
value is paired with the post-state. -/
def RingBuffer.pop {α : Type} (s : RingBuffer α) : Option α × RingBuffer α :=
  if s.read_count > s.write_count ∨ s.read_index = s.write_index then
    (none, s)
  else
    (s.frames.getD s.read_index none,
     { s with
       read_index := (s.read_index + 1) % s.size
       read_count := s.read_count + 1 })

/-- Embedding of `RingBuffer.sync` (lines 79-86): set `read_index` to
`write_index` and reset both counters to zero. -/
def RingBuffer.sync {α : Type} (s : RingBuffer α) : RingBuffer α :=
  { s with
    read_index := s.write_index
    read_count := 0
    write_count := 0 }

/-- Argument passed to a feature setter: Python's
`isinstance(v, numbers.Number)` check splits values into numerics and
everything else; numeric values are modelled as rationals, exact for every
constant the code and the claims use. -/
inductive PyValue where
  | num (q : ℚ)
  | nonNumeric
deriving Repr, DecidableEq

/-- Embedding of `int(q)` on the nonnegative values the validated setters
accept (Python truncates toward zero, which is the floor there). -/
def pyInt (q : ℚ) : Int := ⌊q⌋

/-- Heterogeneous feature value returned by `Camera.get` (Python returns a
float, an int, a bool, or `None`). -/
inductive PyObj where
  | ratVal (q : ℚ)
  | intVal (i : Int)
  | boolVal (b : Bool)
  | noneVal
deriving Repr, DecidableEq

/-- Embedding of class `CameraDataThread`'s state (camera.py lines 89-165).
The `run` loop itself depends on wall-clock time and is not needed by any
claim; what is modelled is the configuration fields, the running flag, and —
because a `threading.Thread` object can be started at most once, a second
`Thread.start()` raising RuntimeError — whether the underlying thread was
ever started. -/
structure CameraDataThread where
  frame_time_sec : ℚ
  exposure_time : ℚ
  width : Int
  height : Int
  frame_number : Nat
  is_started : Bool
  ever_started : Bool
deriving Repr, DecidableEq

/-- Embedding of `CameraDataThread.__init__` (lines 95-105). -/
def mkCameraDataThread : CameraDataThread :=
  { frame_time_sec := 1
    exposure_time := 1
    width := 640
    height := 512
    frame_number := 1
    is_started := false
    ever_started := false }

/-- Embedding of `CameraDataThread.stop` (lines 143-149): a no-op when not
started, otherwise clears the running flag (the join only blocks the caller,
it changes no state). -/
def CameraDataThread.stop (t : CameraDataThread) : CameraDataThread :=
  if t.is_started = false then t else { t with is_started := false }

/-- Embedding of `CameraDataThread.start` (lines 137-141): stop any previous
run, set the running flag, then call the base `Thread.start()`, which raises
RuntimeError (modelled `Except.error ()`) when this object was already
started once.  The post-state of the object at the moment of return or raise
is paired with the outcome, since Python keeps mutations made before a
raise. -/
def CameraDataThread.start (t : CameraDataThread) :
    Except Unit Unit × CameraDataThread :=
  let t1 := t.stop
  let t2 := { t1 with is_started := true }
  if t2.ever_started then (Except.error (), t2)
  else (Except.ok (), { t2 with ever_started := true })

/-- Embedding of `CameraDataThread.setFrameRate` (lines 151-153). -/
def CameraDataThread.setFrameRate (t : CameraDataThread) (framerate : ℚ) :
    CameraDataThread :=
  { t with frame_time_sec := 1 / framerate }

/-- Embedding of `CameraDataThread.setExposureTime` (lines 155-157). -/
def CameraDataThread.setExposureTime (t : CameraDataThread)
    (exposuretime : ℚ) : CameraDataThread :=
  { t with exposure_time := exposuretime }

/-- Embedding of `CameraDataThread.setWidth` (lines 159-161). -/
def CameraDataThread.setWidth (t : CameraDataThread) (width : Int) :
    CameraDataThread :=
  { t with width := width }

/-- Embedding of `CameraDataThread.setHeight` (lines 163-165). -/
def CameraDataThread.setHeight (t : CameraDataThread) (height : Int) :
    CameraDataThread :=
  { t with height := height }

/-- Embedding of `CameraDataThread.__generageFrameNumber` (lines 128-135),
with the two rng draws made explicit arguments: `rand` stands for
`rng.integers(0, 65535)` (uniform on 0..65534) and `skip` for
`rng.integers(0, 5)` (uniform on 0..4; it is drawn only inside the branch in
the source, so passing it unconditionally changes nothing observable). -/
def generageFrameNumber (frame_number rand skip : Nat) : Nat :=
  let frame_count := 1
  let frame_count := if rand < 650 then frame_count + skip else frame_count
  frame_number + frame_count

/-- The value-bearing entries of `Camera.__features` (lines 182-183); the
`start` and `stop` keys hold `None` and are pure dispatch targets. -/
structure Features where
  framerate : ℚ
  exposuretime : ℚ
  width : Int
  height : Int
  isstarted : Bool
deriving Repr, DecidableEq

/-- Embedding of class `Camera` (lines 168-355): feature store, ring buffer
of 100 slots, and the optional producer thread. -/
structure Camera where
  features : Features
  buffer : RingBuffer Nat
  thread : Option CameraDataThread
deriving Repr, DecidableEq

/-- Embedding of `Camera.__init__` (lines 180-185). -/
def mkCamera : Camera :=
  { features :=
      { framerate := 10
        exposuretime := 1
        width := 640
        height := 512
        isstarted := false }
    buffer := mkRingBuffer 100
    thread := none }

/-- Embedding of `Camera.__createThread` (lines 323-326): create the
producer only when absent. -/
def Camera.createThread (c : Camera) : Camera :=
  match c.thread with
  | none => { c with thread := some mkCameraDataThread }
  | some _ => c

/-- Embedding of `Camera.__adjustExposureTime` (lines 286-293): clamp the
stored exposure time to one frame period of the given framerate. -/
def Camera.adjustExposureTime (c : Camera) (framerate : ℚ) : ℚ :=
  let frame_time := 1000 / framerate
  let exposure_time := c.features.exposuretime
  min exposure_time frame_time

/-- Embedding of `Camera.__setFrameRate` (lines 253-265): validate, store
the framerate, recompute and store the clamped exposure time, lazily create
the producer, forward both values to it.  The `Except.error` branch models
the AttributeError a `None` producer would raise at the forwarding step; it
is unreachable because `__createThread` runs first. -/
def Camera.setFrameRate (c : Camera) (v : PyValue) :
    Except Unit Bool × Camera :=
  match v with
  | .nonNumeric => (Except.ok false, c)
  | .num framerate =>
    if framerate < 1 ∨ framerate > 50 then (Except.ok false, c)
    else
      let c1 := { c with features := { c.features with framerate := framerate } }
      let c2 :=
        { c1 with features :=
            { c1.features with exposuretime := c1.adjustExposureTime framerate } }
      let c3 := c2.createThread
      match c3.thread with
      | none => (Except.error (), c3)
      | some t =>
        let t2 := (t.setFrameRate c3.features.framerate).setExposureTime
          c3.features.exposuretime
        (Except.ok true, { c3 with thread := some t2 })

/-- Embedding of `Camera.__setExposureTime` (lines 271-280). -/
def Camera.setExposureTime (c : Camera) (v : PyValue) :
    Except Unit Bool × Camera :=
  match v with
  | .nonNumeric => (Except.ok false, c)
  | .num exposuretime =>
    if exposuretime < 1 / 10 ∨ exposuretime > 30 then (Except.ok false, c)
    else
      let c1 :=
        { c with features := { c.features with exposuretime := exposuretime } }
      let c2 := c1.createThread
      match c2.thread with
      | none => (Except.error (), c2)
      | some t =>
        (Except.ok true, { c2 with thread := some (t.setExposureTime exposuretime) })

/-- Embedding of `Camera.__setWidth` (lines 295-303): validate, store the
truncated width, then forward to `self.__thread` — with no
`__createThread` call first, so a missing producer raises AttributeError
(modelled `Except.error ()`) after the store already happened. -/
def Camera.setWidth (c : Camera) (v : PyValue) : Except Unit Bool × Camera :=
  match v with
  | .nonNumeric => (Except.ok false, c)
  | .num width =>
    if width < 100 ∨ width > 1000 then (Except.ok false, c)
    else
      let w := pyInt width
      let c1 := { c with features := { c.features with width := w } }
      match c1.thread with
      | none => (Except.error (), c1)
      | some t => (Except.ok true, { c1 with thread := some (t.setWidth w) })

/-- Embedding of `Camera.__setHeight` (lines 309-317): same shape as
`__setWidth`, including the missing lazy creation. -/
def Camera.setHeight (c : Camera) (v : PyValue) : Except Unit Bool × Camera :=
  match v with
  | .nonNumeric => (Except.ok false, c)
  | .num height =>
    if height < 100 ∨ height > 1000 then (Except.ok false, c)
    else
      let h := pyInt height
      let c1 := { c with features := { c.features with height := h } }
      match c1.thread with
      | none => (Except.error (), c1)
      | some t => (Except.ok true, { c1 with thread := some (t.setHeight h) })

/-- Embedding of `Camera.get` (lines 212-225). -/
def Camera.get (c : Camera) (feature_name : String) : PyObj :=
  if feature_name = ("framerate") then PyObj.ratVal c.features.framerate
  else if feature_name = ("exposuretime") then PyObj.ratVal c.features.exposuretime
  else if feature_name = ("width") then PyObj.intVal c.features.width
  else if feature_name = ("height") then PyObj.intVal c.features.height
  else if feature_name = ("isstarted") then PyObj.boolVal c.features.isstarted
  else PyObj.noneVal

/-- Embedding of `Camera.__start` (lines 328-341).  The body is a
`try/except` returning `False` on any raise, with all mutations made before
the raise kept.  The `none` match arm models the caught AttributeError of a
producer that is still absent after `__createThread` (unreachable); the only
reachable raise is `Thread.start()` on an already-started producer, which
the except-clause turns into `False` — with `isstarted` left `True`. -/
def Camera.start (c : Camera) : Bool × Camera :=
  let c1 := { c with features := { c.features with isstarted := true } }
  let c2 := c1.createThread
  match c2.thread with
  | none => (false, c2)
  | some t =>
    let t1 := (((t.setFrameRate c2.features.framerate).setExposureTime
        c2.features.exposuretime).setWidth c2.features.width).setHeight
        c2.features.height
    let c3 := { c2 with thread := some t1, buffer := c2.buffer.sync }
    let r := t1.start
    let c4 := { c3 with thread := some r.2 }
    match r.1 with
    | .ok _ => (true, c4)
    | .error _ => (false, c4)

/-- Embedding of `Camera.__stop` (lines 343-351): clear `isstarted`, stop
and release the producer; a missing producer raises AttributeError, caught
and reported as `False` (with `isstarted` already cleared). -/
def Camera.stop (c : Camera) : Bool × Camera :=
  let c1 := { c with features := { c.features with isstarted := false } }
  match c1.thread with
  | none => (false, c1)
  | some _ => (true, { c1 with thread := none })

/-- Embedding of `Camera.set` (lines 195-210), the string-keyed dispatch. -/
def Camera.set (c : Camera) (feature_name : String) (value : PyValue) :
    Except Unit Bool × Camera :=
  if feature_name = ("framerate") then c.setFrameRate value
  else if feature_name = ("exposuretime") then c.setExposureTime value
  else if feature_name = ("width") then c.setWidth value
  else if feature_name = ("height") then c.setHeight value
  else if feature_name = ("start") then (Except.ok (c.start).1, (c.start).2)
  else if feature_name = ("stop") then (Except.ok (c.stop).1, (c.stop).2)
  else (Except.ok false, c)

/-- Whether the controller currently owns a producer whose underlying thread
was already started once (the state in which `Thread.start()` raises). -/
def Camera.threadEverStarted (c : Camera) : Bool :=
  match c.thread with
  | none => false
  | some t => t.ever_started

/-- One operation of the RingBuffer interface. -/
inductive Op (α : Type) where
  | push (frame : α)
  | pop
  | sync
deriving Repr, DecidableEq

/-- Apply one operation to a buffer state (a `pop`'s returned frame is
discarded; only the state transition matters for reachability). -/
def stepOp {α : Type} (s : RingBuffer α) (op : Op α) : RingBuffer α :=
  match op with
  | .push f => s.push f
  | .pop => (s.pop).2
  | .sync => s.sync

/-- States reachable from a freshly created buffer of capacity `C` by a
finite sequence of push, pop and sync operations. -/
def Reachable {α : Type} (C : Nat) (s : RingBuffer α) : Prop :=
  ∃ ops : List (Op α), ops.foldl stepOp (mkRingBuffer C) = s

/-- Push a whole list of frames, in order. -/
def pushList {α : Type} (l : List α) (s : RingBuffer α) : RingBuffer α :=
  l.foldl RingBuffer.push s

/-- Pop `k` times, collecting the returned optional frames in order. -/
def popList {α : Type} (k : Nat) (s : RingBuffer α) :
    List (Option α) × RingBuffer α :=
  match k with
  | 0 => ([], s)
  | k + 1 =>
    let p := s.pop
    let r := popList k p.2
    (p.1 :: r.1, r.2)

/-- Reading a list after an in-range update: the updated position holds the
new value, every other position is unchanged. -/
theorem getD_set_of_lt {α : Type} (l : List α) (i j : Nat) (v d : α)
    (h : i < l.length) :
    (l.set i v).getD j d = if j = i then v else l.getD j d := by
  rw [List.getD_eq_getElem?_getD, List.getD_eq_getElem?_getD, List.getElem?_set]
  by_cases hj : j = i
  · subst hj
    simp [h]
  · rw [if_neg fun hij => hj hij.symm, if_neg hj]

/-- Structural invariant holding in every reachable buffer state of positive
capacity `C`: sizes are fixed, indices stay in range, the read counter never
exceeds the write counter, the write index is the read index shifted by the
number of unread frames (modulo `C`), and every slot in the unread window is
occupied. -/
structure Inv {α : Type} (C : Nat) (s : RingBuffer α) : Prop where
  size_eq : s.size = C
  len_eq : s.frames.length = C
  wi_lt : s.write_index < C
  ri_lt : s.read_index < C
  counts : s.read_count ≤ s.write_count
  cong : (s.read_index + (s.write_count - s.read_count)) % C = s.write_index
  window : ∀ k, k < min (s.write_count - s.read_count) C →
    (s.frames.getD ((s.read_index + k) % C) none).isSome

/-- Freshly created buffers satisfy the invariant. -/
theorem inv_init {α : Type} (C : Nat) (hC : 0 < C) :
    Inv C (mkRingBuffer (α := α) C) := by
  refine ⟨rfl, List.length_replicate .., hC, hC, le_refl 0, ?_, ?_⟩
  · simp [mkRingBuffer]
  · intro k hk
    simp [mkRingBuffer] at hk

/-- `push` preserves the invariant. -/
theorem inv_push {α : Type} {C : Nat} {s : RingBuffer α} (h : Inv C s)
    (f : α) : Inv C (s.push f) := by
  have hC : 0 < C := lt_of_le_of_lt (Nat.zero_le _) h.wi_lt
  obtain ⟨h1, h2, h3, h4, h5, h6, h7⟩ := h
  refine ⟨h1, ?_, ?_, h4, ?_, ?_, ?_⟩
  · simpa [RingBuffer.push] using h2
  · simp only [RingBuffer.push, h1]
    exact Nat.mod_lt _ hC
  · simp only [RingBuffer.push]
    omega
  · simp only [RingBuffer.push, h1]
    have e1 : s.write_count + 1 - s.read_count = (s.write_count - s.read_count) + 1 := by
      omega
    rw [e1, ← Nat.add_assoc, ← Nat.mod_add_mod, h6]
  · intro k hk
    simp only [RingBuffer.push, h1] at hk ⊢
    rw [getD_set_of_lt _ _ _ _ _ (by rw [h2]; exact h3)]
    by_cases hj : (s.read_index + k) % C = s.write_index
    · rw [if_pos hj]
      rfl
    · rw [if_neg hj]
      have hkC : k < C := lt_of_lt_of_le hk (min_le_right _ _)
      have hkc : k < s.write_count + 1 - s.read_count :=
        lt_of_lt_of_le hk (min_le_left _ _)
      rcases lt_or_ge k (s.write_count - s.read_count) with h8 | h8
      · exact h7 k (lt_min h8 hkC)
      · exfalso
        apply hj
        have e2 : k = s.write_count - s.read_count := by omega
        rw [e2]
        exact h6

/-- `pop` preserves the invariant. -/
theorem inv_pop {α : Type} {C : Nat} {s : RingBuffer α} (h : Inv C s) :
    Inv C ((s.pop).2) := by
  have hC : 0 < C := lt_of_le_of_lt (Nat.zero_le _) h.wi_lt
  obtain ⟨h1, h2, h3, h4, h5, h6, h7⟩ := h
  rw [RingBuffer.pop]
  by_cases hcond : s.read_count > s.write_count ∨ s.read_index = s.write_index
  · rw [if_pos hcond]
    exact ⟨h1, h2, h3, h4, h5, h6, h7⟩
  · rw [if_neg hcond]
    push_neg at hcond
    obtain ⟨-, hne⟩ := hcond
    have hlt : s.read_count < s.write_count := by
      rcases Nat.lt_or_ge s.read_count s.write_count with h8 | h8
      · exact h8
      · exfalso
        apply hne
        have e0 : s.write_count - s.read_count = 0 := by omega
        have := h6
        rw [e0, Nat.add_zero, Nat.mod_eq_of_lt h4] at this
        exact this
    refine ⟨h1, h2, h3, ?_, by simpa using hlt, ?_, ?_⟩
    · simp only [h1]
      exact Nat.mod_lt _ hC
    · simp only [h1]
      rw [Nat.mod_add_mod]
      have e1 : s.read_index + 1 + (s.write_count - (s.read_count + 1)) =
          s.read_index + (s.write_count - s.read_count) := by omega
      rw [e1, h6]
    · intro k hk
      simp only [h1] at hk ⊢
      rw [Nat.mod_add_mod]
      have hkC : k < C := lt_of_lt_of_le hk (min_le_right _ _)
      have hkc : k < s.write_count - (s.read_count + 1) :=
        lt_of_lt_of_le hk (min_le_left _ _)
      rcases Nat.lt_or_ge (k + 1) C with h9 | h9
      · have e2 : s.read_index + 1 + k = s.read_index + (k + 1) := by omega
        rw [e2]
        exact h7 (k + 1) (lt_min (by omega) h9)
      · have e3 : k + 1 = C := by omega
        have e4 : (s.read_index + 1 + k) % C = (s.read_index + 0) % C := by
          have e5 : s.read_index + 1 + k = s.read_index + 0 + C := by omega
          rw [e5, Nat.add_mod_right]
        rw [e4]
        exact h7 0 (lt_min (by omega) hC)

/-- `sync` preserves the invariant. -/
theorem inv_sync {α : Type} {C : Nat} {s : RingBuffer α} (h : Inv C s) :
    Inv C (s.sync) := by
  obtain ⟨h1, h2, h3, h4, h5, h6, h7⟩ := h
  refine ⟨h1, h2, h3, h3, le_refl 0, ?_, ?_⟩
  · simp [RingBuffer.sync, Nat.mod_eq_of_lt h3]
  · intro k hk
    simp [RingBuffer.sync] at hk

/-- Every state reachable from a fresh buffer of positive capacity satisfies
the invariant. -/
theorem inv_of_reachable {α : Type} {C : Nat} {s : RingBuffer α}
    (hC : 0 < C) (h : Reachable C s) : Inv C s := by
  obtain ⟨ops, rfl⟩ := h
  suffices H : ∀ (ops : List (Op α)) (t : RingBuffer α), Inv C t →
      Inv C (ops.foldl stepOp t) from H ops _ (inv_init C hC)
  intro ops
  induction ops with
  | nil => intro t ht; exact ht
  | cons op ops ih =>
    intro t ht
    refine ih _ ?_
    cases op with
    | push f => exact inv_push ht f
    | pop => exact inv_pop ht
    | sync => exact inv_sync ht

/-- State after pushing the list `l` into a fresh buffer of positive
capacity `C`: the write index is `l.length % C`, the counters record
`l.length` writes and no reads, and slot `j` holds the most recent pushed
frame whose push ordinal is congruent to `j` modulo `C` (or `None` when no
push reached slot `j`). -/
theorem pushList_mk {α : Type} (C : Nat) (hC : 0 < C) (l : List α) :
    ∃ F : List (Option α),
      pushList l (mkRingBuffer C) =
        ⟨C, F, l.length % C, 0, l.length, 0⟩ ∧
      F.length = C ∧
      ∀ j, j < C →
        F.getD j none =
          if j < l.length then l[l.length - 1 - ((l.length - 1 - j) % C)]?
          else none := by
  induction l using List.reverseRecOn with
  | nil =>
    refine ⟨List.replicate C none, ?_, List.length_replicate .., ?_⟩
    · simp [pushList, mkRingBuffer]
    · intro j hj
      simp [List.getD_eq_getElem?_getD, List.getElem?_replicate, hj]
  | append_singleton l f ih =>
    obtain ⟨F, hF, hlen, hslot⟩ := ih
    set n := l.length with hn
    refine ⟨F.set (n % C) (some f), ?_, by simpa using hlen, ?_⟩
    · have hstep : pushList (l ++ [f]) (mkRingBuffer C) =
          (pushList l (mkRingBuffer C)).push f := by
        simp [pushList, List.foldl_append]
      rw [hstep, hF]
      simp only [RingBuffer.push, List.length_append, List.length_singleton]
      congr 1
      · rw [Nat.mod_add_mod]
    · intro j hj
      have hmodlt : n % C < F.length := by
        rw [hlen]
        exact Nat.mod_lt _ hC
      rw [getD_set_of_lt _ _ _ _ _ hmodlt]
      simp only [List.length_append, List.length_singleton, Nat.add_sub_cancel]
      by_cases hjm : j = n % C
      · rw [if_pos hjm]
        have hjn : j ≤ n := by
          rw [hjm]
          exact Nat.mod_le n C
        rw [if_pos (by omega : j < n + 1)]
        have e1 : (n - j) % C = 0 := by
          have hq := Nat.div_add_mod n C
          have e0 : n - j = C * (n / C) := by
            rw [hjm]
            omega
          rw [e0, Nat.mul_mod_right]
        rw [e1, Nat.sub_zero]
        exact (List.getElem?_concat_length l f).symm
      · rw [if_neg hjm, hslot j hj]
        rcases Nat.lt_trichotomy j n with hcase | hcase | hcase
        · rw [if_pos hcase, if_pos (by omega : j < n + 1)]
          have hr0 : (n - j) % C ≠ 0 := by
            intro h0
            obtain ⟨q2, hq2⟩ := Nat.dvd_of_mod_eq_zero h0
            apply hjm
            have e : n = j + C * q2 := by omega
            rw [e, Nat.add_mul_mod_self_left, Nat.mod_eq_of_lt hj]
          have hrC : (n - j) % C < C := Nat.mod_lt _ hC
          have hrle : (n - j) % C ≤ n - j := Nat.mod_le _ _
          have hq2 := Nat.div_add_mod (n - j) C
          have e4 : n - 1 - j = ((n - j) % C - 1) + C * ((n - j) / C) := by
            omega
          have e5 : (n - 1 - j) % C = (n - j) % C - 1 := by
            rw [e4, Nat.add_mul_mod_self_left, Nat.mod_eq_of_lt (by omega)]
          have e6 : n - 1 - ((n - j) % C - 1) = n - (n - j) % C := by
            omega
          rw [e5, e6,
            List.getElem?_append_left (show n - (n - j) % C < l.length by omega)]
        · exfalso
          apply hjm
          rw [hcase, Nat.mod_eq_of_lt (hcase ▸ hj)]
        · rw [if_neg (by omega : ¬ j < n), if_neg (by omega : ¬ j < n + 1)]

/-- Running `k` pops from a state whose read index equals its read counter
`i` and whose write index `M` is below the capacity: the pops return the
slots `i, i+1, ..., M-1` in order and then `None` forever. -/
theorem popList_succ_fst {α : Type} (k : Nat) (s : RingBuffer α) :
    (popList (k + 1) s).1 = (s.pop).1 :: (popList k ((s.pop).2)).1 := rfl

theorem popList_run {α : Type} (C n M : Nat) (F : List (Option α))
    (hM : M < C) (hMn : M ≤ n) :
    ∀ (k i : Nat), i ≤ M →
      (popList k (⟨C, F, M, i, n, i⟩ : RingBuffer α)).1 =
        ((List.range' i (min k (M - i))).map (fun j => F.getD j none)) ++
          List.replicate (k - (M - i)) none := by
  intro k
  induction k with
  | zero =>
    intro i hi
    simp [popList]
  | succ k ih =>
    intro i hi
    by_cases hiM : i = M
    · have hpop : (RingBuffer.pop (⟨C, F, M, i, n, i⟩ : RingBuffer α)) =
          (none, ⟨C, F, M, i, n, i⟩) := by
        rw [RingBuffer.pop, if_pos (Or.inr hiM)]
      simp only [popList_succ_fst, hpop]
      rw [ih i hi]
      have hz : M - i = 0 := by omega
      rw [hz]
      simp [List.replicate_succ]
    · have hi' : i < M := lt_of_le_of_ne hi hiM
      have hcnot : ¬ ((⟨C, F, M, i, n, i⟩ : RingBuffer α).read_count >
            (⟨C, F, M, i, n, i⟩ : RingBuffer α).write_count ∨
          (⟨C, F, M, i, n, i⟩ : RingBuffer α).read_index =
            (⟨C, F, M, i, n, i⟩ : RingBuffer α).write_index) := by
        push_neg
        exact ⟨show i ≤ n by omega, hiM⟩
      have hpop : (RingBuffer.pop (⟨C, F, M, i, n, i⟩ : RingBuffer α)) =
          (F.getD i none, ⟨C, F, M, (i + 1) % C, n, i + 1⟩) := by
        rw [RingBuffer.pop, if_neg hcnot]
      have hmod : (i + 1) % C = i + 1 := Nat.mod_eq_of_lt (by omega)
      simp only [popList_succ_fst, hpop, hmod]
      rw [ih (i + 1) (by omega)]
      have hmin : min (k + 1) (M - i) = min k (M - (i + 1)) + 1 := by omega
      rw [hmin, List.range'_succ i (min k (M - (i + 1))) 1, List.map_cons]
      have hrep : k + 1 - (M - i) = k - (M - (i + 1)) := by omega
      rw [hrep]
      rfl

/-- Mapping slot reads over `range' 0 (min k M)` equals taking `k` elements
of the some-image of a list `t` of length `M` whose entries agree with the
reads. -/
theorem map_range'_take {α : Type} (k M : Nat) (g : Nat → Option α)
    (t : List α) (hlen : t.length = M) (hg : ∀ p, p < M → g p = t[p]?) :
    (List.range' 0 (min k M)).map g = (t.map some).take k := by
  apply List.ext_getElem?
  intro p
  rcases Nat.lt_or_ge p (min k M) with hp | hp
  · have h1 : (List.range' 0 (min k M))[p]? = some (0 + 1 * p) :=
      List.getElem?_range' 0 1 hp
    rw [List.getElem?_map, h1]
    have hpk : p < k := lt_of_lt_of_le hp (min_le_left _ _)
    have hpM : p < M := lt_of_lt_of_le hp (min_le_right _ _)
    rw [List.getElem?_take_of_lt (h := hpk), List.getElem?_map]
    simp only [Option.map_some', Nat.zero_add, Nat.one_mul]
    rw [hg p hpM, List.getElem?_eq_getElem (by omega)]
    rfl
  · have h1 : (List.range' 0 (min k M)).length ≤ p := by
      rw [List.length_range' 0 1 (min k M)]
      exact hp
    rw [List.getElem?_eq_none (by simpa using h1)]
    have h2 : ((t.map some).take k).length ≤ p := by
      rw [List.length_take, List.length_map, hlen]
      omega
    rw [List.getElem?_eq_none h2]

/-- C7: after `sync`, the read index equals the write index, so the very
next `pop` takes the empty branch.  This holds for every buffer state, in
particular for every reachable one. -/
theorem c7_sync_then_pop_empty (s : RingBuffer Nat) :
    ((s.sync).pop).1 = none := by
  simp [RingBuffer.sync, RingBuffer.pop]

/-- C1, counterexample: after exactly `capacity`-many pushes from a fresh
buffer (here capacity 1, one push) the write count exceeds the read count and
an unread frame is present, yet `pop` returns `None`, because the code treats
`read_index == write_index` as empty without consulting the counters.  The
claim says `pop` returns a Frame in this state. -/
theorem c1_counterexample :
    ((mkRingBuffer 1 : RingBuffer Nat).push 7).read_count <
      ((mkRingBuffer 1 : RingBuffer Nat).push 7).write_count ∧
    ((((mkRingBuffer 1 : RingBuffer Nat).push 7).pop).1 = none) := by
  decide

/-- C1, amended: in every reachable state of a positive-capacity buffer,
`pop` returns `None` exactly when `read_index == write_index` (equivalently,
whenever `read_count > write_count` or `read_index == write_index`, the
former being unreachable); in every other state it returns the occupied slot
at `read_index`, advances `read_index` by one modulo capacity, increments
`read_count`, and touches nothing else.  In particular, after
capacity-many pushes from a fresh buffer the indices coincide and `pop`
returns `None` even though unread frames are present. -/
theorem c1_pop_characterization (C : Nat) (s : RingBuffer Nat) (hC : 0 < C)
    (h : Reachable C s) :
    (((s.pop).1 = none) ↔ s.read_index = s.write_index) ∧
    (s.read_index ≠ s.write_index →
      (s.pop).1 = s.frames.getD s.read_index none ∧
      ((s.pop).1).isSome ∧
      (s.pop).2.read_index = (s.read_index + 1) % s.size ∧
      (s.pop).2.read_count = s.read_count + 1 ∧
      (s.pop).2.write_index = s.write_index ∧
      (s.pop).2.write_count = s.write_count ∧
      (s.pop).2.frames = s.frames) := by
  have hinv := inv_of_reachable hC h
  have hngt : ¬ s.read_count > s.write_count := not_lt.mpr hinv.counts
  by_cases hri : s.read_index = s.write_index
  · constructor
    · rw [RingBuffer.pop, if_pos (Or.inr hri)]
      exact ⟨fun _ => hri, fun _ => rfl⟩
    · intro hne
      exact absurd hri hne
  · have hcond : ¬ (s.read_count > s.write_count ∨ s.read_index = s.write_index) := by
      rintro (h1 | h2)
      · exact hngt h1
      · exact hri h2
    have hsome : (s.frames.getD s.read_index none).isSome := by
      have hlt : s.read_count < s.write_count := by
        rcases Nat.lt_or_ge s.read_count s.write_count with h8 | h8
        · exact h8
        · exfalso
          apply hri
          have e0 : s.write_count - s.read_count = 0 := by
            omega
          have h6 := hinv.cong
          rw [e0, Nat.add_zero, Nat.mod_eq_of_lt hinv.ri_lt] at h6
          exact h6
      have h7 := hinv.window 0 (lt_min (by omega) hC)
      rwa [Nat.add_zero, Nat.mod_eq_of_lt hinv.ri_lt] at h7
    constructor
    · rw [RingBuffer.pop, if_neg hcond]
      constructor
      · intro hnone
        exfalso
        have e6 : s.frames.getD s.read_index none = none := hnone
        rw [e6] at hsome
        exact Bool.noConfusion hsome
      · intro h2
        exact absurd h2 hri
    · intro _
      rw [RingBuffer.pop, if_neg hcond]
      exact ⟨rfl, hsome, rfl, rfl, rfl, rfl, rfl⟩

/-- C1, witness: the amended characterization applied to the concrete
reachable state obtained by one push into a fresh buffer of capacity 2. -/
theorem c1_witness :
    0 < 2 ∧ Reachable 2 ((mkRingBuffer 2 : RingBuffer Nat).push 5) ∧
    ((((mkRingBuffer 2 : RingBuffer Nat).push 5).pop).1 = none ↔
      ((mkRingBuffer 2 : RingBuffer Nat).push 5).read_index =
        ((mkRingBuffer 2 : RingBuffer Nat).push 5).write_index) :=
  ⟨Nat.zero_lt_succ 1, ⟨[Op.push 5], rfl⟩,
    (c1_pop_characterization 2 _ (Nat.zero_lt_succ 1) ⟨[Op.push 5], rfl⟩).1⟩

/-- C4, counterexample: at the boundary case of exactly capacity-many pushes
(capacity 1, one push of frame 5), the first pop returns `None` rather than
the pushed frame, because the write index has wrapped around onto the read
index; the claim says the first pop returns frame 5. -/
theorem c4_counterexample :
    (popList 1 (pushList [5] (mkRingBuffer 1 : RingBuffer Nat))).1 = [none] ∧
    (popList 1 (pushList [5] (mkRingBuffer 1 : RingBuffer Nat))).1 ≠
      [some 5] := by
  decide

/-- C4, amended: for every capacity `C` and every strictly fewer than `C`
pushes into a fresh buffer, the first `l.length` pops return exactly the
pushed frames in FIFO order.  The boundary case of exactly `C` pushes fails
(see the counterexample): there the indices coincide and every pop returns
`None`. -/
theorem c4_fifo_below_capacity (C : Nat) (l : List Nat) (h : l.length < C) :
    (popList l.length (pushList l (mkRingBuffer C))).1 = l.map some := by
  have hC : 0 < C := by omega
  obtain ⟨F, hF, hlen, hslot⟩ := pushList_mk C hC l
  have hM : l.length % C = l.length := Nat.mod_eq_of_lt h
  rw [hF, hM]
  have hrun := popList_run C l.length l.length F h (le_refl _) l.length 0
    (Nat.zero_le _)
  rw [hrun]
  simp only [Nat.sub_zero, min_self, Nat.sub_self, List.replicate_zero,
    List.append_nil]
  have hmap := map_range'_take l.length l.length (fun j => F.getD j none) l
    rfl ?_
  · rw [min_self] at hmap
    rw [hmap]
    simp
  · intro p hp
    show F.getD p none = l[p]?
    rw [hslot p (by omega), if_pos hp]
    have e1 : (l.length - 1 - p) % C = l.length - 1 - p :=
      Nat.mod_eq_of_lt (by omega)
    rw [e1]
    congr 1
    omega

/-- C4, witness: the amended FIFO theorem applied to two pushes into a fresh
buffer of capacity 3. -/
theorem c4_witness :
    ([4, 9] : List Nat).length < 3 ∧
    (popList ([4, 9] : List Nat).length
      (pushList [4, 9] (mkRingBuffer 3 : RingBuffer Nat))).1 =
      ([4, 9] : List Nat).map some :=
  ⟨by decide, c4_fifo_below_capacity 3 [4, 9] (by decide)⟩

/-- C5, counterexample: with capacity 2 and three pushes (frames 1, 2, 3)
before any pop, the claim says the most recent two frames (2 and 3) are
retrievable; in fact the pops return only frame 3 and then `None` forever
(frame 2 is never returned, and the drained state keeps returning `None`
with an unchanged state). -/
theorem c5_counterexample :
    (popList 3 (pushList [1, 2, 3] (mkRingBuffer 2 : RingBuffer Nat))).1 =
      [some 3, none, none] ∧
    some 2 ∉ (popList 3 (pushList [1, 2, 3] (mkRingBuffer 2 : RingBuffer Nat))).1 ∧
    RingBuffer.pop ((popList 3 (pushList [1, 2, 3] (mkRingBuffer 2 : RingBuffer Nat))).2) =
      (none, (popList 3 (pushList [1, 2, 3] (mkRingBuffer 2 : RingBuffer Nat))).2) := by
  decide

/-- C5, amended: after `n > C` pushes into a fresh buffer of capacity `C`
and before any pop, exactly the most recent `n % C` pushed frames (not the
most recent `C`) are retrievable: `k` pops return them in order followed by
`None`s, and every value ever returned is either `None` or one of the last
`n % C` pushed frames — in particular the earliest `n - C` frames are never
returned. -/
theorem c5_only_last_mod_retrievable (C : Nat) (l : List Nat) (hC : 0 < C)
    (h : C < l.length) (k : Nat) :
    (popList k (pushList l (mkRingBuffer C))).1 =
      ((l.drop (l.length - l.length % C)).map some).take k ++
        List.replicate (k - l.length % C) none ∧
    ∀ x ∈ (popList k (pushList l (mkRingBuffer C))).1,
      x = none ∨ ∃ j, l.length - l.length % C ≤ j ∧ j < l.length ∧
        x = l[j]? := by
  obtain ⟨F, hF, hlen, hslot⟩ := pushList_mk C hC l
  set n := l.length with hn
  have hM : n % C < C := Nat.mod_lt _ hC
  have main : (popList k (pushList l (mkRingBuffer C))).1 =
      ((l.drop (n - n % C)).map some).take k ++
        List.replicate (k - n % C) none := by
    rw [hF]
    have hrun := popList_run C n (n % C) F hM (Nat.mod_le _ _) k 0
      (Nat.zero_le _)
    rw [hrun]
    simp only [Nat.sub_zero]
    congr 1
    apply map_range'_take
    · rw [List.length_drop]
      omega
    · intro p hp
      show F.getD p none = (l.drop (n - n % C))[p]?
      rw [hslot p (by omega), if_pos (by omega : p < n)]
      rw [List.getElem?_drop]
      congr 1
      have hq := Nat.div_add_mod n C
      have e4 : n - 1 - p = (n % C - 1 - p) + C * (n / C) := by omega
      have e5 : (n - 1 - p) % C = n % C - 1 - p := by
        rw [e4, Nat.add_mul_mod_self_left, Nat.mod_eq_of_lt (by omega)]
      rw [e5]
      omega
  refine ⟨main, ?_⟩
  intro x hx
  rw [main] at hx
  rcases List.mem_append.mp hx with h1 | h1
  · have h2 := List.mem_of_mem_take h1
    obtain ⟨y, hy, rfl⟩ := List.mem_map.mp h2
    right
    obtain ⟨p, hp, hyp⟩ := List.mem_iff_getElem.mp hy
    have hplt : p < n % C := by
      have := List.length_drop (n - n % C) l
      omega
    refine ⟨n - n % C + p, Nat.le_add_right _ _, by omega, ?_⟩
    have e7 : (l.drop (n - n % C))[p]? = l[n - n % C + p]? :=
      List.getElem?_drop l (n - n % C) p
    have e8 : (l.drop (n - n % C))[p]? = some y := by
      rw [List.getElem?_eq_getElem hp, hyp]
    rw [← e7]
    exact e8.symm
  · left
    exact List.eq_of_mem_replicate h1

/-- C5, witness: the amended theorem applied to three pushes into a fresh
buffer of capacity 2, draining with three pops. -/
theorem c5_witness :
    0 < 2 ∧ 2 < ([1, 2, 3] : List Nat).length ∧
    (popList 3 (pushList [1, 2, 3] (mkRingBuffer 2 : RingBuffer Nat))).1 =
      ((([1, 2, 3] : List Nat).drop
          (([1, 2, 3] : List Nat).length - ([1, 2, 3] : List Nat).length % 2)).map
        some).take 3 ++
        List.replicate (3 - ([1, 2, 3] : List Nat).length % 2) none :=
  ⟨by decide, by decide,
    (c5_only_last_mod_retrievable 2 [1, 2, 3] (by decide) (by decide) 3).1⟩

/-- C6: in every state reachable from a fresh buffer of positive capacity by
pushes, pops and syncs, the read counter never exceeds the write counter. -/
theorem c6_read_count_le_write_count (C : Nat) (s : RingBuffer Nat)
    (hC : 0 < C) (h : Reachable C s) : s.read_count ≤ s.write_count :=
  (inv_of_reachable hC h).counts

/-- C6, witness: the invariant applied to the concrete reachable state after
a push and a pop on a fresh buffer of capacity 2. -/
theorem c6_witness :
    0 < 2 ∧
    Reachable 2 (stepOp (stepOp (mkRingBuffer 2 : RingBuffer Nat) (Op.push 5)) Op.pop) ∧
    (stepOp (stepOp (mkRingBuffer 2 : RingBuffer Nat) (Op.push 5)) Op.pop).read_count ≤
      (stepOp (stepOp (mkRingBuffer 2 : RingBuffer Nat) (Op.push 5)) Op.pop).write_count :=
  ⟨Nat.zero_lt_succ 1, ⟨[Op.push 5, Op.pop], rfl⟩,
    c6_read_count_le_write_count 2 _ (Nat.zero_lt_succ 1) ⟨[Op.push 5, Op.pop], rfl⟩⟩

/-- C2, counterexample: starting an already-started controller a second
time makes the internal `Thread.start()` raise; the operation returns
`false` as claimed, but the stored `isstarted` feature reads `true`
afterwards, not `false` — the flag is set before the failing step and never
rolled back. -/
theorem c2_counterexample :
    (Camera.start (Camera.start mkCamera).2).1 = false ∧
    (Camera.start (Camera.start mkCamera).2).2.features.isstarted = true :=
  ⟨rfl, rfl⟩

/-- C2, amended: whenever an internal step of `start` raises (on a
controller that owns a producer, the only step that can raise is
`Thread.start()` on a thread object already started once), the operation
returns `false` and swallows the exception — the model function is total and
returns normally — but the stored `isstarted` feature reads `true`
afterwards, because it is assigned `True` before the failing step and the
except-clause does not reset it. -/
theorem c2_start_failure_keeps_isstarted (c : Camera)
    (h : c.threadEverStarted = true) :
    (c.start).1 = false ∧ (c.start).2.features.isstarted = true := by
  rcases hth : c.thread with _ | t
  · rw [Camera.threadEverStarted, hth] at h
    exact Bool.noConfusion h
  · have hev : t.ever_started = true := by
      rw [Camera.threadEverStarted, hth] at h
      exact h
    rcases t with ⟨ft, et, w, ht, fn, istrt, evst⟩
    simp only at hev
    subst hev
    cases istrt <;>
      simp [Camera.start, Camera.createThread, hth,
        CameraDataThread.setFrameRate, CameraDataThread.setExposureTime,
        CameraDataThread.setWidth, CameraDataThread.setHeight,
        CameraDataThread.start, CameraDataThread.stop]

/-- C2, witness: the amended theorem applied to the controller obtained by
one successful start from a fresh camera. -/
theorem c2_witness :
    (Camera.start mkCamera).2.threadEverStarted = true ∧
    ((Camera.start mkCamera).2.start).1 = false ∧
    ((Camera.start mkCamera).2.start).2.features.isstarted = true :=
  ⟨rfl, (c2_start_failure_keeps_isstarted (Camera.start mkCamera).2 rfl).1,
    (c2_start_failure_keeps_isstarted (Camera.start mkCamera).2 rfl).2⟩

/-- C3: the code violates the claim.  On a freshly constructed controller
(no producer exists) a setWidth or setHeight call with the in-range value
500 does not lazily create the producer: `__setWidth` forwards straight to
`self.__thread`, which is `None`, so the call raises AttributeError
(modelled `Except.error ()`) instead of returning `true`.  The spec's design
notes call this asymmetry an oversight, so the claim records the intent and
the code is the slip. -/
theorem c3_setwidth_crashes_without_producer :
    mkCamera.thread = none ∧
    (mkCamera.setWidth (PyValue.num 500)).1 = Except.error () ∧
    (mkCamera.setHeight (PyValue.num 500)).1 = Except.error () :=
  ⟨rfl, rfl, rfl⟩

/-- C8: `setFrameRate` rejects any non-numeric argument and any numeric
argument outside `[1, 50]`, returning `False` with the controller state
fully unchanged; and on a fresh controller `setFrameRate(10)` returns `True`
after which `getFeature('framerate')` reads exactly `10.0`. -/
theorem c8_setframerate_validation (q : ℚ) (c : Camera)
    (hq : q < 1 ∨ q > 50) :
    c.setFrameRate (PyValue.num q) = (Except.ok false, c) ∧
    c.setFrameRate PyValue.nonNumeric = (Except.ok false, c) ∧
    (mkCamera.setFrameRate (PyValue.num 10)).1 = Except.ok true ∧
    (mkCamera.setFrameRate (PyValue.num 10)).2.get ("framerate") =
      PyObj.ratVal 10 := by
  refine ⟨?_, rfl, rfl, rfl⟩
  rw [Camera.setFrameRate, if_pos hq]

/-- C8, witness: the validation theorem applied at the spec's own examples
0.5 and 51, and its unconditional conjuncts at 10. -/
theorem c8_witness :
    ((1 / 2 : ℚ) < 1 ∨ (1 / 2 : ℚ) > 50) ∧
    mkCamera.setFrameRate (PyValue.num (1 / 2)) = (Except.ok false, mkCamera) ∧
    ((51 : ℚ) < 1 ∨ (51 : ℚ) > 50) ∧
    mkCamera.setFrameRate (PyValue.num 51) = (Except.ok false, mkCamera) ∧
    (mkCamera.setFrameRate (PyValue.num 10)).1 = Except.ok true :=
  ⟨Or.inl (by norm_num),
    (c8_setframerate_validation (1 / 2) mkCamera (Or.inl (by norm_num))).1,
    Or.inr (by norm_num),
    (c8_setframerate_validation 51 mkCamera (Or.inr (by norm_num))).1,
    (c8_setframerate_validation 51 mkCamera (Or.inr (by norm_num))).2.2.1⟩

/-- C9, counterexample: with random draw 0 the skip branch is taken
(`0 < 650`) and with skip draw 0 the generated number is the previous plus
exactly 1 — refuting the claim that the increment is at least 2 whenever the
skip branch is taken (`rng.integers(0, 5)` excludes 5, so the branch adds 0
to 4 extra, not 1 to 5). -/
theorem c9_counterexample :
    0 < 650 ∧ generageFrameNumber 10 0 0 = 11 := by
  decide

/-- C9, amended: every generated frame number exceeds the previous one by an
increment in `{1, ..., 5}` (not `{1, ..., 6}`): the nominal branch adds
exactly 1, and the skip branch adds 0 to 4 additional numbers — so a skip
draw of 0 still yields increment 1. -/
theorem c9_increment_bounds (prev rand skip : Nat) (h : skip < 5) :
    1 ≤ generageFrameNumber prev rand skip - prev ∧
    generageFrameNumber prev rand skip - prev ≤ 5 ∧
    (650 ≤ rand → generageFrameNumber prev rand skip = prev + 1) := by
  have e : generageFrameNumber prev rand skip =
      prev + (if rand < 650 then 1 + skip else 1) := rfl
  rw [e]
  by_cases hr : rand < 650
  · rw [if_pos hr]
    omega
  · rw [if_neg hr]
    omega

/-- C9, witness: the amended bounds applied at previous number 10, random
draw 0 and skip draw 3. -/
theorem c9_witness :
    3 < 5 ∧ 1 ≤ generageFrameNumber 10 0 3 - 10 ∧
    generageFrameNumber 10 0 3 - 10 ≤ 5 :=
  ⟨by decide, (c9_increment_bounds 10 0 3 (by decide)).1,
    (c9_increment_bounds 10 0 3 (by decide)).2.1⟩

/-- C10: a setWidth or setHeight call with an in-range numeric value on a
controller without a producer is not atomic: the feature store is updated to
the new (truncated) value first, and only then does the forwarding step
raise, so the failed call leaves the stored feature changed. -/
theorem c10_failed_set_updates_store (c : Camera) (q : ℚ)
    (hth : c.thread = none) (h1 : 100 ≤ q) (h2 : q ≤ 1000) :
    (c.setWidth (PyValue.num q)).1 = Except.error () ∧
    (c.setWidth (PyValue.num q)).2.features.width = pyInt q ∧
    (c.setHeight (PyValue.num q)).1 = Except.error () ∧
    (c.setHeight (PyValue.num q)).2.features.height = pyInt q := by
  have hcond : ¬ (q < 100 ∨ q > 1000) := by
    push_neg
    exact ⟨h1, h2⟩
  simp [Camera.setWidth, Camera.setHeight, if_neg hcond, hth]

/-- C10, witness: the non-atomicity theorem applied to a fresh controller
and the value 500 (whose truncation is 500). -/
theorem c10_witness :
    mkCamera.thread = none ∧ (100 : ℚ) ≤ 500 ∧ (500 : ℚ) ≤ 1000 ∧
    (mkCamera.setWidth (PyValue.num 500)).2.features.width = pyInt 500 :=
  ⟨rfl, by norm_num, by norm_num,
    (c10_failed_set_updates_store mkCamera 500 rfl (by norm_num)
      (by norm_num)).2.1⟩

end CameraPy
